import Mathlib

/-!
Verification development for a Go source-to-source generator
(`go-gen-struct`): the program scans Go files, finds type declarations
whose doc comment carries the `//gen:setters` marker, and writes a
companion `_setters.go` file with `Set<Field>` methods for the fixed
target fields `CreatedAt` and `UpdatedAt`.

The embedding below follows `main.go` (the single source file of the
analysis pipeline).  Go slices become `List`, the Go map used for import
bookkeeping becomes an association list plus an explicit iteration-order
parameter (Go map iteration order is unspecified), and a `panic` becomes
`Option.none`.  Filesystem and `go/format` canonicalization are outside
the embedding; the emitter is modelled up to the rendered template text.
-/

namespace GenStruct

/-! ### Go string helpers used by the source (strings / path packages) -/

/-- Model of `strings.HasPrefix s pre` (used for the marker test). -/
def goHasPrefix (s pre : String) : Bool :=
  pre.data.isPrefixOf s.data

/-- Model of `strings.Contains s "."` as used at line 156 of the source. -/
def containsDot (s : String) : Bool :=
  s.data.any (fun c => c = '.')

/-- Model of `strings.Split(s, ".")[0]`: the text before the first dot
(the whole string when there is no dot). -/
def splitFirst (s : String) : String :=
  String.mk (s.data.takeWhile (fun c => c ≠ '.'))

/-- Model of `strings.TrimSuffix s suf`. -/
def goTrimSuffix (s suf : String) : String :=
  if suf.data.isSuffixOf s.data then
    String.mk (s.data.take (s.data.length - suf.data.length))
  else s

/-- Model of `filepath.Base` restricted to slash-separated paths: the last
path segment, with Go's conventions for the empty and all-slash paths. -/
def goBase (p : String) : String :=
  if p.data = [] then "."
  else
    let trimmed := (p.data.reverse.dropWhile (fun c => c = '/')).reverse
    if trimmed = [] then "/"
    else String.mk ((trimmed.reverse.takeWhile (fun c => c ≠ '/')).reverse)

/-! ### The type-expression AST consumed by the Type Printer

`go/ast` expression nodes, restricted to the constructors the printer at
`getFiledTypeString` switches on; every other node kind is collapsed into
`other` (carrying the Go type name, as in the panic message).  Fields the
source ignores (array length, channel direction, interface method list)
are omitted because the printer never reads them. -/

inductive Expr where
  | ident (name : String)
  | star (x : Expr)
  | selector (x : Expr) (sel : String)
  | array (elt : Expr)
  | mapT (key : Expr) (value : Expr)
  | interfaceT
  | chan (value : Expr)
  | ellipsis (elt : Expr)
  | other (kind : String)
deriving DecidableEq

/-- The Type Printer of the source (`getFiledTypeString`, lines 213–234).
The Go function panics on an unsupported node kind; the panic is modelled
as `none`, and it propagates through every recursive case exactly as a Go
panic unwinds the recursion. -/
def getFiledTypeString : Expr → Option String
  | Expr.ident name => some name
  | Expr.star x => (getFiledTypeString x).map (fun s => "*" ++ s)
  | Expr.selector x sel => (getFiledTypeString x).map (fun s => s ++ "." ++ sel)
  | Expr.array elt => (getFiledTypeString elt).map (fun s => "[]" ++ s)
  | Expr.mapT k v =>
      (getFiledTypeString k).bind (fun ks =>
        (getFiledTypeString v).map (fun vs => "map[" ++ ks ++ "]" ++ vs))
  | Expr.interfaceT => some "interface\x7b\x7d"
  | Expr.chan v => (getFiledTypeString v).map (fun s => "chann " ++ s)
  | Expr.ellipsis elt => (getFiledTypeString elt).map (fun s => "..." ++ s)
  | Expr.other _ => none

/-- An expression is built only from the node kinds the printer supports. -/
def supportedExpr : Expr → Bool
  | Expr.ident _ => true
  | Expr.star x => supportedExpr x
  | Expr.selector x _ => supportedExpr x
  | Expr.array elt => supportedExpr elt
  | Expr.mapT k v => supportedExpr k && supportedExpr v
  | Expr.interfaceT => true
  | Expr.chan v => supportedExpr v
  | Expr.ellipsis elt => supportedExpr elt
  | Expr.other _ => false

/-- Modelled from the spec: the canonical text of §4.1, written from the
spec's printing rules (simple name, `*`, qualified, `[]`, `map[..]..`,
`interface{}`, the literal channel word `chann `, `...`), to be compared
with the printer embedded from the source.  Junk value `""` outside the
supported kinds. -/
def specCanonicalTypeText : Expr → String
  | Expr.ident name => name
  | Expr.star x => "*" ++ specCanonicalTypeText x
  | Expr.selector x sel => specCanonicalTypeText x ++ "." ++ sel
  | Expr.array elt => "[]" ++ specCanonicalTypeText elt
  | Expr.mapT k v =>
      "map[" ++ specCanonicalTypeText k ++ "]" ++ specCanonicalTypeText v
  | Expr.interfaceT => "interface\x7b\x7d"
  | Expr.chan v => "chann " ++ specCanonicalTypeText v
  | Expr.ellipsis elt => "..." ++ specCanonicalTypeText elt
  | Expr.other _ => ""

/-! ### Declarations and source files -/

/-- One field declaration of a struct body: a (possibly empty) name list
sharing one type expression, as in `ast.Field`. -/
structure Field where
  names : List String
  type : Expr
deriving DecidableEq

/-- The declared type of a type spec: a struct body or anything else. -/
inductive TyDecl where
  | structType (fields : List Field)
  | otherType
deriving DecidableEq

/-- `ast.TypeSpec`: a named type declaration. -/
structure TypeSpec where
  name : String
  type : TyDecl
deriving DecidableEq

/-- One spec of a declaration group (`ast.GenDecl.Specs` entry). -/
inductive Spec where
  | typeSpec (ts : TypeSpec)
  | otherSpec
deriving DecidableEq

/-- The token of a `GenDecl`: `token.TYPE` or any other keyword. -/
inductive GoTok where
  | TYPE
  | otherTok
deriving DecidableEq

/-- `ast.GenDecl`: a declaration group with its token, optional doc
comment block (a list of comment-line texts) and its specs. -/
structure GenDecl where
  tok : GoTok
  doc : Option (List String)
  specs : List Spec
deriving DecidableEq

/-- A parsed Go file as the scanner consumes it: package name, import
paths (the scanner strips the surrounding quotes of each literal; paths
are stored unquoted here), and the `GenDecl` nodes in traversal order of
`ast.Inspect`. -/
structure GoFile where
  packageName : String
  imports : List String
  decls : List GenDecl
deriving DecidableEq

/-- The fixed target-field list of the source (line 17). -/
def targetFields : List String := ["CreatedAt", "UpdatedAt"]

/-! ### The Declaration Scanner (`searchTargetStructs`, lines 59–106) -/

/-- The struct-typed type specs of a declaration group (the inner loop at
lines 86–94: non-`TypeSpec` specs and non-struct types are skipped). -/
def structSpecsOf (specs : List Spec) : List TypeSpec :=
  specs.filterMap (fun s =>
    match s with
    | Spec.typeSpec ts =>
        match ts.type with
        | TyDecl.structType _ => some ts
        | TyDecl.otherType => none
    | Spec.otherSpec => none)

/-- Lines 83–96: `structs` is re-made empty, then for every doc line with
the `//gen:setters` marker all struct specs of the group are appended. -/
def markerStructs (d : GenDecl) : List TypeSpec :=
  (d.doc.getD []).foldl
    (fun acc c =>
      if goHasPrefix c "//gen:setters" then acc ++ structSpecsOf d.specs
      else acc)
    []

/-- The scanner's result struct (`targetStructs`, lines 108–114). -/
structure targetStructs where
  path : String
  filename : String
  packageName : String
  imports : List String
  structs : List TypeSpec
deriving DecidableEq

/-- One step of the `ast.Inspect` callback (lines 67–98): a `GenDecl`
whose token is `TYPE` and whose doc is non-nil overwrites both the
`imports` slice (re-harvested in full from the file) and the `structs`
slice (re-made from this group alone); every other node leaves the state
unchanged. -/
def scanStep (file : GoFile) (st : List TypeSpec × List String)
    (d : GenDecl) : List TypeSpec × List String :=
  if d.tok = GoTok.TYPE ∧ d.doc ≠ none then (markerStructs d, file.imports)
  else st

/-- `searchTargetStructs` (lines 59–106), for an already-parsed file.
`dir` and `base` stand for `filepath.Dir filename` and
`filepath.Base filename`. -/
def searchTargetStructs (dir base : String) (file : GoFile) : targetStructs :=
  let st := file.decls.foldl (scanStep file) ([], [])
  { path := dir
    filename := base
    packageName := file.packageName
    imports := st.2
    structs := st.1 }

/-! ### The Setter Synthesizer and Emitter
(`generateTargetSetter`, lines 133–202) -/

/-- One synthesized accessor (`setter`, lines 122–126). -/
structure setter where
  StructName : String
  FieldName : String
  FieldType : String
deriving DecidableEq

/-- The data handed to the template (`templateData`, lines 116–120). -/
structure templateData where
  PackageName : String
  Imports : List String
  Setters : List setter
deriving DecidableEq

/-- `containsTargetField` (lines 204–211). -/
def containsTargetField (f : String) (targets : List String) : Bool :=
  targets.any (fun target => f = target)

/-- Insert-or-replace on an association list: the behaviour of
`importsMap[key] = value` on the Go map (lines 135–138). -/
def upsert : List (String × String) → String → String → List (String × String)
  | [], k, v => [(k, v)]
  | (k0, v0) :: rest, k, v =>
      if k0 = k then (k, v) :: rest else (k0, v0) :: upsert rest k v

/-- Lines 135–138: the map from short package name (`filepath.Base`) to
full import path.  A later import with the same base overwrites an
earlier one, as Go map assignment does. -/
def buildImportsMap (imps : List String) : List (String × String) :=
  imps.foldl (fun m imp => upsert m (goBase imp) imp) []

/-- The setters contributed by one field declaration (lines 146–167):
embedded fields (empty name list) are skipped, only `Names[0]` is tested
against the targets, and `getFiledTypeString` is consulted only for
fields that pass the name test (`none` = the Go panic). -/
def fieldSetter (structName : String) (targets : List String)
    (f : Field) : Option (List setter) :=
  match f.names with
  | [] => some []
  | fieldName :: _ =>
      if containsTargetField fieldName targets then
        match getFiledTypeString f.type with
        | none => none
        | some ft => some [⟨structName, fieldName, ft⟩]
      else some []

/-- One step of appending the contribution of one item to the setters
accumulated so far, with the panic (`none`) propagating. -/
def optStep {α : Type} (g : α → Option (List setter))
    (acc : Option (List setter)) (a : α) : Option (List setter) :=
  acc.bind (fun l => (g a).map (fun ys => l ++ ys))

/-- The setters contributed by one scanned type spec (lines 141–168):
non-struct specs are skipped by the type assertion at line 142. -/
def structSetters (targets : List String) (ts : TypeSpec) :
    Option (List setter) :=
  match ts.type with
  | TyDecl.structType fields =>
      fields.foldl (optStep (fieldSetter ts.name targets)) (some [])
  | TyDecl.otherType => some []

/-- The full setter list of the unit, in struct/field declaration order;
`none` models the panic escaping `generateTargetSetter`. -/
def synthSetters (structs : List TypeSpec) (targets : List String) :
    Option (List setter) :=
  structs.foldl (optStep (structSetters targets)) (some [])

/-- Line 156–161: an entry of the imports map is marked used when some
synthesized field type contains a dot and its text before the first dot
equals the entry's key. -/
def importUsed (setters : List setter) (k : String) : Bool :=
  setters.any (fun s => containsDot s.FieldType && splitFirst s.FieldType = k)

/-- Lines 194–197: the companion-file path
`filepath.Join(dir, TrimSuffix(base, ".go") + "_setters.go")`. -/
def outputPath (t : targetStructs) : String :=
  t.path ++ "/" ++ goTrimSuffix t.filename ".go" ++ "_setters.go"

/-- The observable outcome of `generateTargetSetter`: the Go panic from
the Type Printer, the early `nil` return with nothing written (line
169–171), or the companion file written with its template data. -/
inductive GenResult where
  | panicked
  | nothingToGenerate
  | wrote (path : String) (data : templateData)
deriving DecidableEq

/-- `generateTargetSetter` (lines 133–202).  `order` is the iteration
order of the Go map range at line 172, supplied explicitly because Go
leaves it unspecified; a run of the program corresponds to some `order`
that enumerates the map's keys (`IsMapIterationOrder`). -/
def targetStructs.generateTargetSetter (t : targetStructs)
    (order : List String) (targets : List String) : GenResult :=
  let importsMap := buildImportsMap t.imports
  match synthSetters t.structs targets with
  | none => GenResult.panicked
  | some setters =>
      if setters = [] then GenResult.nothingToGenerate
      else
        let imports := order.filterMap (fun k =>
          match importsMap.lookup k with
          | some v => if importUsed setters k then some v else none
          | none => none)
        GenResult.wrote (outputPath t)
          { PackageName := t.packageName
            Imports := imports
            Setters := setters }

/-- `order` enumerates exactly the keys of the map `m`, each once: the
contract of `for _, imp := range importsMap`. -/
def IsMapIterationOrder (order : List String)
    (m : List (String × String)) : Prop :=
  order.Perm (m.map Prod.fst)

instance (order : List String) (m : List (String × String)) :
    Decidable (IsMapIterationOrder order m) := by
  unfold IsMapIterationOrder; infer_instance

/-! ### The rendered template (`setterTemplate`, lines 236–250)

The source renders through `html/template`, whose text context escapes
the five HTML-special characters of every interpolated value; the escape
is modelled exactly and is the identity on Go identifiers and type
texts.  `go/format.Source` post-processing and the file write are
outside the embedding. -/

/-- The escaping `html/template` applies to an interpolated value in text
context. -/
def htmlEscapeChar (c : Char) : String :=
  if c = '&' then "&amp;"
  else if c = '<' then "&lt;"
  else if c = '>' then "&gt;"
  else if c = Char.ofNat 34 then "&#34;"
  else if c = Char.ofNat 39 then "&#39;"
  else String.mk [c]

def htmlEscape (s : String) : String :=
  String.join (s.data.map htmlEscapeChar)

/-- Concatenation of a list of strings in order (the template writes the
pieces sequentially to the buffer). -/
def concatAll : List String → String
  | [] => ""
  | s :: l => s ++ concatAll l

/-- One iteration of the template's `range .Imports` body. -/
def renderImport (imp : String) : String :=
  "\n\t\x22" ++ htmlEscape imp ++ "\x22\n"

/-- The method text the template produces for one descriptor:
`func (s *Type) SetField(v FieldType) { s.Field = v }` over several
lines. -/
def methodText (sn fn ft : String) : String :=
  "func (s *" ++ sn ++ ") Set" ++ fn ++ "(v " ++ ft ++
    ") \x7b\n\ts." ++ fn ++ " = v\n\x7d"

/-- One iteration of the template's `range .Setters` body: a newline, the
method text (every interpolation escaped), a newline. -/
def renderSetter (s : setter) : String :=
  "\n" ++ methodText (htmlEscape s.StructName) (htmlEscape s.FieldName)
    (htmlEscape s.FieldType) ++ "\n"

/-- Executing `setterTemplate` on the template data (before
`go/format.Source` canonicalization). -/
def executeTemplate (d : templateData) : String :=
  "\npackage " ++ htmlEscape d.PackageName ++ "\n\nimport (\n" ++
    concatAll (d.Imports.map renderImport) ++ "\n)\n\n" ++
    concatAll (d.Setters.map renderSetter) ++ "\n"

/-- `a` occurs verbatim inside `b`. -/
def StrInfix (a b : String) : Prop :=
  ∃ l r : String, b = l ++ a ++ r

/-! ### Spec-side comparators (written from the spec's words, §4.1/§4.3) -/

/-- Modelled from the spec: §4.3's per-field rule — a field contributes a
descriptor exactly when its name is a member of `targetFields` (exact
string equality), with the type resolved by the Type Printer; written to
be compared with `fieldSetter` as embedded from the source. -/
def specFieldDescriptor (sn : String) (targets : List String)
    (f : Field) : Option setter :=
  match f.names with
  | [] => none
  | n :: _ =>
      if n ∈ targets then
        (getFiledTypeString f.type).map (fun ft => setter.mk sn n ft)
      else none

/-- Modelled from the spec: §4.3's output — one descriptor per matching
field, in struct/field declaration order. -/
def specDescriptors (targets : List String) (structs : List TypeSpec) :
    List setter :=
  structs.flatMap (fun ts =>
    match ts.type with
    | TyDecl.structType fs => fs.filterMap (specFieldDescriptor ts.name targets)
    | TyDecl.otherType => [])

/-- Some scanned struct has a target-named field whose type expression the
Type Printer rejects (the reached-panic condition of lines 151–155). -/
def UnsupportedTargetField (structs : List TypeSpec)
    (targets : List String) : Prop :=
  ∃ ts ∈ structs, ∃ fs, ts.type = TyDecl.structType fs ∧
    ∃ f ∈ fs, (∃ n rest, f.names = n :: rest ∧
      containsTargetField n targets = true) ∧
    getFiledTypeString f.type = none

/-! ### Concrete units used to settle the claims -/

/-- The struct of the repository's `example/example_v1.go`. -/
def exampleStructSpec : TypeSpec :=
  ⟨"example", TyDecl.structType
    [⟨["Name"], Expr.ident "string"⟩,
     ⟨["CreatedAt"], Expr.selector (Expr.ident "time") "Time"⟩,
     ⟨["UpdatedAt"], Expr.selector (Expr.ident "time") "Time"⟩]⟩

/-- `example/example_v1.go`: package `example`, imports `log` and `time`,
one import declaration group and one marker-bearing type group. -/
def exampleFile : GoFile :=
  ⟨"example", ["log", "time"],
   [⟨GoTok.otherTok, none, [Spec.otherSpec]⟩,
    ⟨GoTok.TYPE, some ["//gen:setters"], [Spec.typeSpec exampleStructSpec]⟩]⟩

/-- The scanner's output on the example file. -/
def exampleScanned : targetStructs :=
  searchTargetStructs "example" "example_v1.go" exampleFile

/-- The template data the generator produces for the example file. -/
def exampleData : templateData :=
  ⟨"example", ["time"],
   [⟨"example", "CreatedAt", "time.Time"⟩,
    ⟨"example", "UpdatedAt", "time.Time"⟩]⟩

/-- A marker-bearing struct `A` for the two-group unit. -/
def tsA : TypeSpec :=
  ⟨"A", TyDecl.structType [⟨["CreatedAt"], Expr.ident "int"⟩]⟩

/-- A marker-bearing struct `B` for the two-group unit. -/
def tsB : TypeSpec :=
  ⟨"B", TyDecl.structType [⟨["UpdatedAt"], Expr.ident "int"⟩]⟩

/-- A unit with two marker-bearing type-declaration groups. -/
def twoMarkerFile : GoFile :=
  ⟨"p", [],
   [⟨GoTok.TYPE, some ["//gen:setters"], [Spec.typeSpec tsA]⟩,
    ⟨GoTok.TYPE, some ["//gen:setters"], [Spec.typeSpec tsB]⟩]⟩

/-- A unit that imports `time` but has no type-declaration group with a
doc comment (only a function and an import declaration, say). -/
def onlyFuncsFile : GoFile :=
  ⟨"p", ["time"], [⟨GoTok.otherTok, none, [Spec.otherSpec]⟩]⟩

/-- A unit whose two target fields draw on two different imports, so that
both imports are marked used. -/
def twoImportUnit : targetStructs :=
  ⟨"d", "f.go", "p", ["a/x", "b/y"],
   [⟨"S", TyDecl.structType
      [⟨["CreatedAt"], Expr.selector (Expr.ident "x") "T"⟩,
       ⟨["UpdatedAt"], Expr.selector (Expr.ident "y") "U"⟩]⟩]⟩

/-- A scanned unit with a marker struct none of whose fields is a target
field. -/
def noTargetUnit : targetStructs :=
  ⟨"d", "f.go", "p", ["time"],
   [⟨"S", TyDecl.structType [⟨["Name"], Expr.ident "string"⟩]⟩]⟩

/-- A scanned unit whose `CreatedAt` field has a type expression of an
unsupported node kind. -/
def unsupportedUnit : targetStructs :=
  ⟨"d", "f.go", "p", [],
   [⟨"S", TyDecl.structType
      [⟨["CreatedAt"], Expr.other "ast.FuncType"⟩]⟩]⟩

/-! ### Helper lemmas -/

theorem containsTargetField_iff (f : String) (targets : List String) :
    containsTargetField f targets = true ↔ f ∈ targets := by
  simp only [containsTargetField, List.any_eq_true, decide_eq_true_eq]
  constructor
  · rintro ⟨t, ht, rfl⟩; exact ht
  · intro hf; exact ⟨f, hf, rfl⟩

theorem foldl_optStep_nil {α : Type} (g : α → Option (List setter))
    (l : List α) : l.foldl (optStep g) none = none := by
  induction l with
  | nil => rfl
  | cons a l ih => simpa [optStep] using ih

theorem foldl_optStep_some {α : Type} (g : α → Option (List setter)) :
    ∀ (l : List α) (init acc : List setter),
      l.foldl (optStep g) (some init) = some acc →
      acc = init ++ l.flatMap (fun a => (g a).getD []) ∧
        ∀ a ∈ l, g a ≠ none := by
  intro l
  induction l with
  | nil =>
      intro init acc h
      simp at h
      simp [h]
  | cons a l ih =>
      intro init acc h
      cases hga : g a with
      | none =>
          rw [List.foldl_cons, optStep, hga] at h
          simp at h
          rw [foldl_optStep_nil] at h
          exact absurd h (by simp)
      | some ys =>
          rw [List.foldl_cons, optStep, hga] at h
          simp at h
          obtain ⟨hacc, hrest⟩ := ih (init ++ ys) acc h
          refine ⟨?_, ?_⟩
          · simp [hacc, hga, List.append_assoc]
          · intro b hb
            rcases List.mem_cons.mp hb with hb | hb
            · subst hb; simp [hga]
            · exact hrest b hb

theorem foldl_optStep_none_of_mem {α : Type} (g : α → Option (List setter)) :
    ∀ (l : List α) (a : α), a ∈ l → g a = none →
      ∀ st, l.foldl (optStep g) st = none := by
  intro l
  induction l with
  | nil => intro a ha; exact absurd ha (by simp)
  | cons b l ih =>
      intro a ha hga st
      rcases List.mem_cons.mp ha with hb | hb
      · subst hb
        rw [List.foldl_cons]
        have : optStep g st a = none := by
          cases st <;> simp [optStep, hga]
        rw [this, foldl_optStep_nil]
      · rw [List.foldl_cons]
        exact ih a hb hga _

theorem foldl_optStep_congr {α : Type} (g g' : α → Option (List setter)) :
    ∀ (l : List α), (∀ a ∈ l, g a = g' a) →
      ∀ st, l.foldl (optStep g) st = l.foldl (optStep g') st := by
  intro l
  induction l with
  | nil => intro _ st; rfl
  | cons a l ih =>
      intro h st
      rw [List.foldl_cons, List.foldl_cons]
      have ha : optStep g st a = optStep g' st a := by
        simp [optStep, h a (List.mem_cons_self a l)]
      rw [ha]
      exact ih (fun b hb => h b (List.mem_cons_of_mem a hb)) _

theorem fieldSetter_getD (sn : String) (targets : List String) (f : Field) :
    (fieldSetter sn targets f).getD [] =
      (specFieldDescriptor sn targets f).toList := by
  rcases f with ⟨names, ty⟩
  cases names with
  | nil => simp [fieldSetter, specFieldDescriptor]
  | cons n rest =>
      by_cases hn : n ∈ targets
      · have hc : containsTargetField n targets = true :=
          (containsTargetField_iff n targets).mpr hn
        cases hty : getFiledTypeString ty <;>
          simp [fieldSetter, specFieldDescriptor, hc, hn, hty]
      · have hc : containsTargetField n targets = false := by
          rcases hb : containsTargetField n targets with _ | _
          · rfl
          · exact absurd ((containsTargetField_iff n targets).mp hb) hn
        simp [fieldSetter, specFieldDescriptor, hc, hn]

theorem flatMap_fieldSetter_eq_filterMap (sn : String)
    (targets : List String) (fs : List Field) :
    fs.flatMap (fun f => (fieldSetter sn targets f).getD []) =
      fs.filterMap (specFieldDescriptor sn targets) := by
  induction fs with
  | nil => rfl
  | cons f fs ih =>
      rw [List.flatMap_cons, List.filterMap_cons, fieldSetter_getD, ih]
      cases specFieldDescriptor sn targets f <;> simp

theorem structSetters_some (targets : List String) (ts : TypeSpec)
    (L : List setter) (h : structSetters targets ts = some L) :
    L = (match ts.type with
      | TyDecl.structType fs => fs.filterMap (specFieldDescriptor ts.name targets)
      | TyDecl.otherType => []) := by
  rcases ts with ⟨name, ty⟩
  cases ty with
  | structType fs =>
      have := foldl_optStep_some (fieldSetter name targets) fs [] L
        (by simpa [structSetters] using h)
      simpa [flatMap_fieldSetter_eq_filterMap] using this.1
  | otherType =>
      simp [structSetters] at h
      simp [h.symm]

theorem lookup_some_mem {β : Type} (k : String) (v : β) :
    ∀ m : List (String × β), m.lookup k = some v → (k, v) ∈ m := by
  intro m
  induction m with
  | nil => intro h; simp [List.lookup] at h
  | cons kv m ih =>
      intro h
      rcases kv with ⟨k0, v0⟩
      rw [List.lookup] at h
      by_cases hk : k = k0
      · subst hk
        simp at h
        simp [h]
      · have hbeq : (k == k0) = false := by simp [hk]
        rw [hbeq] at h
        exact List.mem_cons_of_mem _ (ih h)

theorem concatAll_append (l1 l2 : List String) :
    concatAll (l1 ++ l2) = concatAll l1 ++ concatAll l2 := by
  induction l1 with
  | nil => simp [concatAll, String.empty_append]
  | cons s l ih => simp [concatAll, ih, String.append_assoc]

theorem concatAll_split {α : Type} (f : α → String) (x : α) (l : List α)
    (hx : x ∈ l) :
    ∃ a b : String, concatAll (l.map f) = a ++ (f x ++ b) := by
  obtain ⟨s, t, rfl⟩ := List.append_of_mem hx
  refine ⟨concatAll (s.map f), concatAll (t.map f), ?_⟩
  rw [List.map_append, concatAll_append, List.map_cons]
  rfl

/-- Inversion of a successful run of `generateTargetSetter`: the wrote
path and template data in terms of the unit. -/
theorem generateTargetSetter_wrote_inv (t : targetStructs)
    (order targets : List String) (p : String) (d : templateData)
    (hw : t.generateTargetSetter order targets = GenResult.wrote p d) :
    ∃ setters, synthSetters t.structs targets = some setters ∧
      setters ≠ [] ∧ p = outputPath t ∧
      d = ⟨t.packageName,
        order.filterMap (fun k =>
          match (buildImportsMap t.imports).lookup k with
          | some v => if importUsed setters k then some v else none
          | none => none),
        setters⟩ := by
  cases h : synthSetters t.structs targets with
  | none =>
      simp only [targetStructs.generateTargetSetter, h] at hw
      exact GenResult.noConfusion hw
  | some setters =>
      simp only [targetStructs.generateTargetSetter, h] at hw
      by_cases hs : setters = []
      · simp only [if_pos hs] at hw
        exact GenResult.noConfusion hw
      · simp only [if_neg hs, GenResult.wrote.injEq] at hw
        exact ⟨setters, rfl, hs, hw.1.symm, hw.2.symm⟩

theorem containsTargetField_eq_false (f : String) (targets : List String) :
    containsTargetField f targets = false ↔ f ∉ targets := by
  constructor
  · intro h hf
    rw [(containsTargetField_iff f targets).mpr hf] at h
    exact Bool.noConfusion h
  · intro hf
    cases hb : containsTargetField f targets with
    | false => rfl
    | true => exact absurd ((containsTargetField_iff f targets).mp hb) hf

theorem containsTargetField_congr (targets targets' : List String)
    (hmem : ∀ x, x ∈ targets ↔ x ∈ targets') (f : String) :
    containsTargetField f targets = containsTargetField f targets' := by
  by_cases hf : f ∈ targets
  · rw [(containsTargetField_iff f targets).mpr hf,
      (containsTargetField_iff f targets').mpr ((hmem f).mp hf)]
  · rw [(containsTargetField_eq_false f targets).mpr hf,
      (containsTargetField_eq_false f targets').mpr
        (fun h => hf ((hmem f).mpr h))]

theorem fieldSetter_congr (sn : String) (targets targets' : List String)
    (hmem : ∀ x, x ∈ targets ↔ x ∈ targets') (f : Field) :
    fieldSetter sn targets f = fieldSetter sn targets' f := by
  rcases f with ⟨names, ty⟩
  cases names with
  | nil => rfl
  | cons n rest =>
      simp only [fieldSetter]
      rw [containsTargetField_congr targets targets' hmem n]

theorem structSetters_congr (targets targets' : List String)
    (hmem : ∀ x, x ∈ targets ↔ x ∈ targets') (ts : TypeSpec) :
    structSetters targets ts = structSetters targets' ts := by
  rcases ts with ⟨name, ty⟩
  cases ty with
  | structType fs =>
      simp only [structSetters]
      exact foldl_optStep_congr _ _ fs
        (fun f _ => fieldSetter_congr name targets targets' hmem f) _
  | otherType => rfl

theorem synthSetters_congr (structs : List TypeSpec)
    (targets targets' : List String)
    (hmem : ∀ x, x ∈ targets ↔ x ∈ targets') :
    synthSetters structs targets = synthSetters structs targets' := by
  unfold synthSetters
  exact foldl_optStep_congr _ _ structs
    (fun ts _ => structSetters_congr targets targets' hmem ts) _

theorem flatMap_structSetters_eq (targets : List String) :
    ∀ structs : List TypeSpec,
      (∀ ts ∈ structs, structSetters targets ts ≠ none) →
      structs.flatMap (fun ts => (structSetters targets ts).getD []) =
        specDescriptors targets structs := by
  intro structs
  induction structs with
  | nil => intro _; rfl
  | cons ts structs ih =>
      intro hne
      rw [List.flatMap_cons]
      unfold specDescriptors
      rw [List.flatMap_cons]
      have h1 : (structSetters targets ts).getD [] =
          (match ts.type with
            | TyDecl.structType fs =>
                fs.filterMap (specFieldDescriptor ts.name targets)
            | TyDecl.otherType => []) := by
        cases hst : structSetters targets ts with
        | none => exact absurd hst (hne ts (List.mem_cons_self ts structs))
        | some L => simpa using structSetters_some targets ts L hst
      rw [h1]
      have h2 := ih (fun x hx => hne x (List.mem_cons_of_mem ts hx))
      unfold specDescriptors at h2
      rw [h2]

theorem scanFold (file : GoFile) :
    ∀ (l : List GenDecl) (st : List TypeSpec × List String),
      ((∃ dl ∈ l, dl.tok = GoTok.TYPE ∧ dl.doc ≠ none) →
        (l.foldl (scanStep file) st).2 = file.imports) ∧
      ((∀ dl ∈ l, ¬(dl.tok = GoTok.TYPE ∧ dl.doc ≠ none)) →
        l.foldl (scanStep file) st = st) := by
  intro l
  induction l with
  | nil =>
      intro st
      exact ⟨fun h => absurd h (by simp), fun _ => rfl⟩
  | cons d l ih =>
      intro st
      by_cases hd : d.tok = GoTok.TYPE ∧ d.doc ≠ none
      · constructor
        · intro _
          rw [List.foldl_cons]
          have hstep : scanStep file st d = (markerStructs d, file.imports) := by
            simp only [scanStep, if_pos hd]
          rw [hstep]
          by_cases hl : ∃ dl ∈ l, dl.tok = GoTok.TYPE ∧ dl.doc ≠ none
          · exact (ih _).1 hl
          · have h2 := (ih (markerStructs d, file.imports)).2
              (fun dl hdl hP => hl ⟨dl, hdl, hP⟩)
            rw [h2]
        · intro hall
          exact absurd hd (hall d (List.mem_cons_self d l))
      · have hstep : scanStep file st d = st := by
          simp only [scanStep, if_neg hd]
        constructor
        · intro hex
          rw [List.foldl_cons, hstep]
          rcases hex with ⟨dl, hdl, hP⟩
          rcases List.mem_cons.mp hdl with h | h
          · exact absurd (h ▸ hP) hd
          · exact (ih st).1 ⟨dl, h, hP⟩
        · intro hall
          rw [List.foldl_cons, hstep]
          exact (ih st).2 (fun dl hdl => hall dl (List.mem_cons_of_mem d hdl))

theorem gen_imports_sound (m : List (String × String))
    (setters : List setter) (order : List String) (imp : String)
    (h : imp ∈ order.filterMap (fun k =>
        match m.lookup k with
        | some v => if importUsed setters k then some v else none
        | none => none)) :
    ∃ k, m.lookup k = some imp ∧ importUsed setters k = true := by
  rw [List.mem_filterMap] at h
  obtain ⟨k, _, hg⟩ := h
  refine ⟨k, ?_⟩
  cases hlk : m.lookup k with
  | none => rw [hlk] at hg; exact Option.noConfusion hg
  | some v =>
      rw [hlk] at hg
      cases hu : importUsed setters k with
      | false => rw [hu] at hg; simp at hg
      | true =>
          rw [hu] at hg
          simp at hg
          exact ⟨by rw [hg], rfl⟩

theorem gen_imports_complete (m : List (String × String))
    (setters : List setter) (order : List String) (imp : String)
    (hord : order.Perm (m.map Prod.fst))
    (h : ∃ k, m.lookup k = some imp ∧ importUsed setters k = true) :
    imp ∈ order.filterMap (fun k =>
        match m.lookup k with
        | some v => if importUsed setters k then some v else none
        | none => none) := by
  obtain ⟨k, hlk, hu⟩ := h
  rw [List.mem_filterMap]
  refine ⟨k, ?_, ?_⟩
  · have hkm : (k, imp) ∈ m := lookup_some_mem k imp m hlk
    have hmem : k ∈ m.map Prod.fst := by
      exact List.mem_map_of_mem Prod.fst hkm
    exact hord.mem_iff.mpr hmem
  · rw [hlk, hu]
    simp

theorem methodText_infix_executeTemplate (d : templateData) (s : setter)
    (hs : s ∈ d.Setters)
    (h1 : htmlEscape s.StructName = s.StructName)
    (h2 : htmlEscape s.FieldName = s.FieldName)
    (h3 : htmlEscape s.FieldType = s.FieldType) :
    StrInfix (methodText s.StructName s.FieldName s.FieldType)
      (executeTemplate d) := by
  obtain ⟨a, b, hab⟩ := concatAll_split renderSetter s d.Setters hs
  refine ⟨"\npackage " ++ htmlEscape d.PackageName ++ "\n\nimport (\n" ++
      concatAll (d.Imports.map renderImport) ++ "\n)\n\n" ++ a ++ "\n",
    "\n" ++ b ++ "\n", ?_⟩
  rw [executeTemplate, hab, renderSetter, h1, h2, h3]
  simp only [String.append_assoc]

/-! ### The claims -/

/-- Claim C1 (code bug): the spec says every marker-bearing
type-declaration group contributes its structs to the scanned unit.  The
code instead re-makes the `structs` slice inside the inspection callback
at each doc-bearing type group, so only the last group survives: on a
unit with two marker-bearing groups — the first declaring struct `A`
(which its group's scan alone would contribute, first conjunct) — the
scanner returns only the second group's struct `B`. -/
theorem c1_two_marker_groups_last_wins :
    markerStructs ⟨GoTok.TYPE, some ["//gen:setters"], [Spec.typeSpec tsA]⟩ =
      [tsA] ∧
    (searchTargetStructs "d" "f.go" twoMarkerFile).structs = [tsB] ∧
    tsA ∉ (searchTargetStructs "d" "f.go" twoMarkerFile).structs := by
  decide

/-- Claim C2: in a written result, the generated import block lists
exactly the import paths whose map entry (keyed by `filepath.Base` short
name) is marked used, where an entry is used exactly when some
synthesized field type contains a dot and its text before the first dot
equals the entry's key. -/
theorem c2_used_imports_exact (t : targetStructs)
    (order targets : List String) (p : String) (d : templateData)
    (hord : IsMapIterationOrder order (buildImportsMap t.imports))
    (hw : t.generateTargetSetter order targets = GenResult.wrote p d) :
    ∀ imp, imp ∈ d.Imports ↔
      ∃ k, (buildImportsMap t.imports).lookup k = some imp ∧
        importUsed d.Setters k = true := by
  obtain ⟨setters, hsynth, hne, hp, hd⟩ :=
    generateTargetSetter_wrote_inv t order targets p d hw
  subst hd
  intro imp
  constructor
  · intro himp
    exact gen_imports_sound (buildImportsMap t.imports) setters order imp himp
  · intro hex
    exact gen_imports_complete (buildImportsMap t.imports) setters order imp
      hord hex

/-- Claim C2 witness: on the repository's example unit, the generated
block of imports retains `time` (referenced by the qualified target
fields) and consists of it alone, so the unreferenced `log` one is
dropped. -/
theorem c2_witness :
    exampleScanned.generateTargetSetter ["log", "time"] targetFields =
      GenResult.wrote "example/example_v1_setters.go" exampleData ∧
    exampleData.Imports = ["time"] ∧ "time" ∈ exampleData.Imports := by
  have hw : exampleScanned.generateTargetSetter ["log", "time"] targetFields =
      GenResult.wrote "example/example_v1_setters.go" exampleData := by decide
  refine ⟨hw, by decide, ?_⟩
  have h := c2_used_imports_exact exampleScanned ["log", "time"] targetFields
    _ _ (by decide) hw
  exact (h "time").mpr ⟨"time", by decide, by decide⟩

/-- Claim C3: a successful synthesis yields exactly one descriptor per
target-named field, in struct/field declaration order (the spec-side
`specDescriptors`), and any targets list with the same membership yields
the same output. -/
theorem c3_descriptors_declaration_order (structs : List TypeSpec)
    (targets targets' : List String) (l : List setter)
    (hmem : ∀ x, x ∈ targets ↔ x ∈ targets')
    (h : synthSetters structs targets = some l) :
    l = specDescriptors targets structs ∧
    synthSetters structs targets' = some l := by
  constructor
  · obtain ⟨hacc, hne⟩ :=
      foldl_optStep_some (structSetters targets) structs [] l h
    rw [hacc, List.nil_append]
    exact flatMap_structSetters_eq targets structs hne
  · rw [← synthSetters_congr structs targets targets' hmem]
    exact h

/-- Claim C3 witness: on the example struct the two descriptors come out
in field declaration order, equal the spec-side list, and reversing the
target list leaves the output unchanged. -/
theorem c3_witness :
    synthSetters [exampleStructSpec] targetFields =
      some exampleData.Setters ∧
    exampleData.Setters = specDescriptors targetFields [exampleStructSpec] ∧
    synthSetters [exampleStructSpec] ["UpdatedAt", "CreatedAt"] =
      some exampleData.Setters := by
  have h : synthSetters [exampleStructSpec] targetFields =
      some exampleData.Setters := by decide
  have hmem : ∀ x, x ∈ targetFields ↔ x ∈ ["UpdatedAt", "CreatedAt"] := by
    intro x
    simp only [targetFields, List.mem_cons, List.not_mem_nil, or_false]
    tauto
  obtain ⟨h1, h2⟩ := c3_descriptors_declaration_order [exampleStructSpec]
    targetFields ["UpdatedAt", "CreatedAt"] exampleData.Setters hmem h
  exact ⟨h, h1, h2⟩

/-- Claim C4: on every type expression built from the supported node
kinds, the Type Printer succeeds and returns the canonical text given by
the spec's structural rules (including the misspelled channel word
`chann `). -/
theorem c4_type_printer_canonical (e : Expr)
    (h : supportedExpr e = true) :
    getFiledTypeString e = some (specCanonicalTypeText e) := by
  induction e with
  | ident name => rfl
  | star x ih =>
      rw [supportedExpr] at h
      simp [getFiledTypeString, specCanonicalTypeText, ih h]
  | selector x sel ih =>
      rw [supportedExpr] at h
      simp [getFiledTypeString, specCanonicalTypeText, ih h]
  | array elt ih =>
      rw [supportedExpr] at h
      simp [getFiledTypeString, specCanonicalTypeText, ih h]
  | mapT k v ihk ihv =>
      rw [supportedExpr, Bool.and_eq_true] at h
      simp [getFiledTypeString, specCanonicalTypeText, ihk h.1, ihv h.2]
  | interfaceT => rfl
  | chan v ih =>
      rw [supportedExpr] at h
      simp [getFiledTypeString, specCanonicalTypeText, ih h]
  | ellipsis elt ih =>
      rw [supportedExpr] at h
      simp [getFiledTypeString, specCanonicalTypeText, ih h]
  | other kind => exact Bool.noConfusion h

/-- Claim C4 witness: a nested composite type prints to its canonical
text. -/
theorem c4_witness :
    supportedExpr (Expr.mapT (Expr.ident "string")
      (Expr.star (Expr.selector (Expr.ident "time") "Time"))) = true ∧
    getFiledTypeString (Expr.mapT (Expr.ident "string")
      (Expr.star (Expr.selector (Expr.ident "time") "Time"))) =
      some "map[string]*time.Time" := by
  refine ⟨by decide, ?_⟩
  rw [c4_type_printer_canonical _ (by decide)]
  decide

/-- Claim C5 counterexample: a unit that imports `time` but contains no
doc-bearing type-declaration group is scanned with an empty import list,
not its full one — so the scanner does not record the imports for every
parsed unit. -/
theorem c5_imports_not_always_recorded :
    onlyFuncsFile.imports = ["time"] ∧
    (searchTargetStructs "d" "f.go" onlyFuncsFile).imports ≠
      onlyFuncsFile.imports := by
  decide

/-- Claim C5 (amended): the scanner always records the unit's package
name; it records the full ordered import list iff the unit contains at
least one type-declaration group with an attached doc comment (marker or
not), and otherwise leaves the import list empty. -/
theorem c5_amended_scan_records (dir base : String) (file : GoFile) :
    (searchTargetStructs dir base file).packageName = file.packageName ∧
    ((∃ dl ∈ file.decls, dl.tok = GoTok.TYPE ∧ dl.doc ≠ none) →
      (searchTargetStructs dir base file).imports = file.imports) ∧
    ((∀ dl ∈ file.decls, ¬(dl.tok = GoTok.TYPE ∧ dl.doc ≠ none)) →
      (searchTargetStructs dir base file).imports = []) := by
  refine ⟨rfl, ?_, ?_⟩
  · intro hex
    show (file.decls.foldl (scanStep file) ([], [])).2 = file.imports
    exact (scanFold file file.decls ([], [])).1 hex
  · intro hall
    show (file.decls.foldl (scanStep file) ([], [])).2 = []
    rw [(scanFold file file.decls ([], [])).2 hall]

/-- Claim C5 witness: the example unit has a doc-bearing type group, so
its package name and full import list are recorded. -/
theorem c5_witness :
    (searchTargetStructs "example" "example_v1.go" exampleFile).packageName =
      "example" ∧
    (searchTargetStructs "example" "example_v1.go" exampleFile).imports =
      ["log", "time"] := by
  have h := c5_amended_scan_records "example" "example_v1.go" exampleFile
  exact ⟨h.1, h.2.1 ⟨⟨GoTok.TYPE, some ["//gen:setters"],
    [Spec.typeSpec exampleStructSpec]⟩, by decide, by decide, by decide⟩⟩

/-- Claim C6: when synthesis yields zero descriptors the generator
returns the "nothing to generate" outcome — success and no file
written. -/
theorem c6_zero_descriptors_skip_emission (t : targetStructs)
    (order targets : List String)
    (h : synthSetters t.structs targets = some []) :
    t.generateTargetSetter order targets = GenResult.nothingToGenerate := by
  simp [targetStructs.generateTargetSetter, h]

/-- Claim C6 witness: a unit whose marker struct has no target-named
field produces zero descriptors and skips emission. -/
theorem c6_witness :
    synthSetters noTargetUnit.structs targetFields = some [] ∧
    noTargetUnit.generateTargetSetter ["time"] targetFields =
      GenResult.nothingToGenerate :=
  ⟨by decide, c6_zero_descriptors_skip_emission _ _ _ (by decide)⟩

/-- Claim C7 (code bug): the spec promises byte-identical output on
repeated runs, but the block of imports is assembled by ranging over a
Go map, whose iteration order is unspecified.  On a unit with two used
ones, two valid iteration orders of the same map produce different
outputs. -/
theorem c7_output_depends_on_map_order :
    IsMapIterationOrder ["x", "y"] (buildImportsMap twoImportUnit.imports) ∧
    IsMapIterationOrder ["y", "x"] (buildImportsMap twoImportUnit.imports) ∧
    twoImportUnit.generateTargetSetter ["x", "y"] targetFields ≠
      twoImportUnit.generateTargetSetter ["y", "x"] targetFields := by
  refine ⟨by decide, by decide, by decide⟩

/-- Claim C8: a written result goes to `dir/foo_setters.go`, its package
clause is the unit's package name, its block of imports holds only used
paths, and the rendered text contains, for each descriptor, one
method of the shape `func (s *Type) SetField(v FieldType) {
s.Field = v }` (whenever the descriptor's strings are free of
HTML-escaped characters, as Go identifiers and type texts are). -/
theorem c8_generated_file_contract (dir base : String) (file : GoFile)
    (order targets : List String) (p : String) (d : templateData)
    (hw : (searchTargetStructs dir base file).generateTargetSetter order
        targets = GenResult.wrote p d) :
    p = dir ++ "/" ++ goTrimSuffix base ".go" ++ "_setters.go" ∧
    d.PackageName = file.packageName ∧
    (∀ imp ∈ d.Imports, ∃ k,
        (buildImportsMap
            (searchTargetStructs dir base file).imports).lookup k =
          some imp ∧ importUsed d.Setters k = true) ∧
    ∀ s ∈ d.Setters,
      htmlEscape s.StructName = s.StructName →
      htmlEscape s.FieldName = s.FieldName →
      htmlEscape s.FieldType = s.FieldType →
      StrInfix (methodText s.StructName s.FieldName s.FieldType)
        (executeTemplate d) := by
  obtain ⟨setters, hsynth, hne, hp, hd⟩ :=
    generateTargetSetter_wrote_inv _ order targets p d hw
  subst hd
  subst hp
  refine ⟨rfl, rfl, ?_, ?_⟩
  · intro imp himp
    exact gen_imports_sound _ setters order imp himp
  · intro s hs h1 h2 h3
    exact methodText_infix_executeTemplate _ s hs h1 h2 h3

/-- Claim C8 witness: the full pipeline on the repository's example file
writes `example/example_v1_setters.go` with the input unit's package
name. -/
theorem c8_witness :
    (searchTargetStructs "example" "example_v1.go"
        exampleFile).generateTargetSetter ["log", "time"] targetFields =
      GenResult.wrote "example/example_v1_setters.go" exampleData ∧
    "example/example_v1_setters.go" =
      "example" ++ "/" ++ goTrimSuffix "example_v1.go" ".go" ++
        "_setters.go" ∧
    exampleData.PackageName = exampleFile.packageName := by
  have hw : (searchTargetStructs "example" "example_v1.go"
      exampleFile).generateTargetSetter ["log", "time"] targetFields =
      GenResult.wrote "example/example_v1_setters.go" exampleData := by
    decide
  have h := c8_generated_file_contract "example" "example_v1.go" exampleFile
    ["log", "time"] targetFields _ _ hw
  exact ⟨hw, h.1, h.2.1⟩

/-- Claim C9: the Type Printer fails (the Go panic, modelled as `none`)
on every unsupported node kind, and when a scanned struct's target field
has such a type, the whole generation of that file aborts in the
panicked state — nothing is emitted. -/
theorem c9_unsupported_kind_panics :
    (∀ kind, getFiledTypeString (Expr.other kind) = none) ∧
    ∀ (t : targetStructs) (order targets : List String),
      UnsupportedTargetField t.structs targets →
      t.generateTargetSetter order targets = GenResult.panicked := by
  refine ⟨fun kind => rfl, ?_⟩
  intro t order targets h
  obtain ⟨ts, hts, fs, hty, f, hf, ⟨n, rest, hnames, hcont⟩, hprint⟩ := h
  have hfield : fieldSetter ts.name targets f = none := by
    simp [fieldSetter, hnames, hcont, hprint]
  have hstruct : structSetters targets ts = none := by
    simp only [structSetters, hty]
    exact foldl_optStep_none_of_mem _ fs f hf hfield _
  have hsynth : synthSetters t.structs targets = none :=
    foldl_optStep_none_of_mem _ t.structs ts hts hstruct _
  simp [targetStructs.generateTargetSetter, hsynth]

/-- Claim C9 witness: a unit whose `CreatedAt` field has an unsupported
type expression panics. -/
theorem c9_witness :
    unsupportedUnit.generateTargetSetter [] targetFields =
      GenResult.panicked ∧
    getFiledTypeString (Expr.other "ast.FuncType") = none := by
  refine ⟨c9_unsupported_kind_panics.2 unsupportedUnit [] targetFields ?_,
    c9_unsupported_kind_panics.1 "ast.FuncType"⟩
  exact ⟨⟨"S", TyDecl.structType
      [⟨["CreatedAt"], Expr.other "ast.FuncType"⟩]⟩, by decide,
    [⟨["CreatedAt"], Expr.other "ast.FuncType"⟩], rfl,
    ⟨["CreatedAt"], Expr.other "ast.FuncType"⟩, by decide,
    ⟨"CreatedAt", [], rfl, by decide⟩, rfl⟩

/-- Claim C10: an embedded field (empty name list) contributes no
descriptor — dropping it from the struct body leaves synthesis unchanged
— and a multi-name field behaves exactly as the field declaring only its
first name: the remaining names are never tested. -/
theorem c10_embedded_and_multiname_fields (sn : String)
    (targets : List String) (fs1 fs2 : List Field) (ty : Expr)
    (n : String) (rest : List String) :
    fieldSetter sn targets ⟨[], ty⟩ = some [] ∧
    fieldSetter sn targets ⟨n :: rest, ty⟩ =
      fieldSetter sn targets ⟨[n], ty⟩ ∧
    structSetters targets ⟨sn, TyDecl.structType (fs1 ++ ⟨[], ty⟩ :: fs2)⟩ =
      structSetters targets ⟨sn, TyDecl.structType (fs1 ++ fs2)⟩ ∧
    structSetters targets
        ⟨sn, TyDecl.structType (fs1 ++ ⟨n :: rest, ty⟩ :: fs2)⟩ =
      structSetters targets
        ⟨sn, TyDecl.structType (fs1 ++ ⟨[n], ty⟩ :: fs2)⟩ := by
  refine ⟨rfl, rfl, ?_, ?_⟩
  · simp only [structSetters]
    rw [List.foldl_append, List.foldl_append, List.foldl_cons]
    have hstep : ∀ acc,
        optStep (fieldSetter sn targets) acc ⟨[], ty⟩ = acc := by
      intro acc; cases acc <;> simp [optStep, fieldSetter]
    rw [hstep]
  · simp only [structSetters]
    rw [List.foldl_append, List.foldl_append, List.foldl_cons,
      List.foldl_cons]
    rfl

end GenStruct
